import Mathlib

/-!
Shallow embedding of `src/main.rs` from the TransactionProcessor repository.

The program reads transaction records (deposit, withdrawal, dispute, resolve,
chargeback), folds them over two maps — `client_info : HashMap<u16, ClientInfo>`
and `tx_map : HashMap<u32, Transaction>` — and emits the final accounts.

Modelling choices:
- `rust_decimal::Decimal` is embedded as `Rat` (exact decimal arithmetic on the
  operations the program uses: `+`, `-`, `>=`).
- `HashMap` is embedded as an association list `AMap` with `containsKey`,
  `lookup`, `insert` (insert replaces an existing binding, as `HashMap::insert`
  does) and `entryOrInsert` (the `entry(..).or_insert(..)` pattern).
- the `u16` client ids and `u32` transaction ids are embedded as `Nat`; the
  program only compares them for equality and uses them as map keys.
- the byte-string tag `record.tx_type : &[u8]` is embedded as a `String`; the
  Rust `match` on byte literals `b"deposit"`, ... becomes an if-chain on string
  equality, which is the same exact (case-sensitive) comparison.
- the only fallible paths inside the loop body are the `Error::UnexpectedError`
  returns; reading / deserialization failures belong to the I/O adapter and are
  outside the embedded function, so one loop iteration is
  `process_record : PState → TransactionEntry → Except Error PState`.
-/

/-- Association-list map standing in for `std::collections::HashMap`. -/
def AMap (α β : Type) : Type := List (α × β)

instance {α β : Type} [DecidableEq α] [DecidableEq β] : DecidableEq (AMap α β) :=
  inferInstanceAs (DecidableEq (List (α × β)))

instance {α β : Type} [Repr α] [Repr β] : Repr (AMap α β) :=
  inferInstanceAs (Repr (List (α × β)))

namespace AMap

variable {α β : Type} [DecidableEq α]

/-- The empty map (`HashMap::new`). -/
def empty {α β : Type} : AMap α β := []

/-- Key membership, `HashMap::contains_key`. -/
def containsKey : AMap α β → α → Bool
  | [], _ => false
  | (k, _) :: rest, a => k = a || containsKey rest a

/-- Value lookup, `HashMap::get` / `HashMap::get_mut`. -/
def lookup : AMap α β → α → Option β
  | [], _ => none
  | (k, v) :: rest, a => if k = a then some v else lookup rest a

/-- Insertion, `HashMap::insert`: replaces the binding if the key is present. -/
def insert : AMap α β → α → β → AMap α β
  | [], a, b => [(a, b)]
  | (k, v) :: rest, a, b => if k = a then (a, b) :: rest else (k, v) :: insert rest a b

/-- The `entry(k).or_insert(d)` pattern: the map after making sure `k` is bound,
together with the value now bound at `k`. -/
def entryOrInsert (m : AMap α β) (a : α) (d : β) : AMap α β × β :=
  match m.lookup a with
  | some v => (m, v)
  | none => (m.insert a d, d)
end AMap

/-- Embeds the Rust struct `ClientInfo { available, held, total, locked }`. -/
structure ClientInfo where
  available : Rat
  held : Rat
  total : Rat
  locked : Bool
  deriving DecidableEq, Repr

/-- Embeds the Rust enum `DisputeStage { None, Open, ChargeBack }`. -/
inductive DisputeStage where
  | None
  | Open
  | ChargeBack
  deriving DecidableEq, Repr

/-- Embeds the Rust struct `Transaction { client, amount, dispute_stage }`. -/
structure Transaction where
  client : Nat
  amount : Rat
  dispute_stage : DisputeStage
  deriving DecidableEq, Repr

/-- Embeds the deserialized Rust struct
`TransactionEntry { tx_type, client, tx, amount }`. -/
structure TransactionEntry where
  tx_type : String
  client : Nat
  tx : Nat
  amount : Option Rat
  deriving DecidableEq, Repr

/-- Embeds the error enum; only `UnexpectedError` can arise inside the loop
body (`ReadError` / `ParseError` belong to the I/O adapter). -/
inductive Error where
  | UnexpectedError (msg : String)
  deriving DecidableEq, Repr

/-- The mutable state of `process_transactions`: the caller-owned
`client_info` map and the local `tx_map`. -/
structure PState where
  client_info : AMap Nat ClientInfo
  tx_map : AMap Nat Transaction
  deriving DecidableEq, Repr

/-- The state at the start of `process_transactions`: both maps empty. -/
def PState.init : PState := ⟨AMap.empty, AMap.empty⟩

/-- The fresh account inserted by `or_insert` in the deposit arm:
all-zero balances, unlocked. -/
def freshClient : ClientInfo := ⟨0, 0, 0, false⟩

/-- The `b"deposit"` arm of the match. -/
def depositStep (s : PState) (record : TransactionEntry) : PState :=
  if s.tx_map.containsKey record.tx then s
  else match record.amount with
    | none => s
    | some amt =>
      -- entry(record.client).or_insert(zeroed); available += amt; total += amt
      let p := s.client_info.entryOrInsert record.client freshClient
      let cf := p.2
      let cf' := { cf with available := cf.available + amt, total := cf.total + amt }
      let ci := p.1.insert record.client cf'
      let tm := s.tx_map.insert record.tx ⟨record.client, amt, DisputeStage.None⟩
      ⟨ci, tm⟩

/-- The `b"withdrawal"` arm of the match. -/
def withdrawalStep (s : PState) (record : TransactionEntry) : Except Error PState :=
  if record.amount.isNone || !(s.client_info.containsKey record.client) then .ok s
  else match s.client_info.lookup record.client with
    | none => .error (.UnexpectedError "Client id not found")
    | some cf =>
      match record.amount with
      | none => .ok s
      | some amt =>
        -- the closure: mutate iff available >= amt, returning amt, else -1.0
        if cf.available ≥ amt then
          let cf' := { cf with available := cf.available - amt, total := cf.total - amt }
          let ci := s.client_info.insert record.client cf'
          -- `if amount >= 0` guards the ledger-entry insert
          if amt ≥ 0 then
            .ok ⟨ci, s.tx_map.insert record.tx ⟨record.client, amt, DisputeStage.None⟩⟩
          else
            .ok ⟨ci, s.tx_map⟩
        else
          -- amount = -1.0 < 0: no mutation, no ledger entry
          .ok s

/-- The `b"dispute"` arm of the match. -/
def disputeStep (s : PState) (record : TransactionEntry) : Except Error PState :=
  if !(s.tx_map.containsKey record.tx) || !(s.client_info.containsKey record.client) then
    .ok s
  else match s.tx_map.lookup record.tx with
    | none => .error (.UnexpectedError "Transaction id not found")
    | some tx =>
      if tx.client ≠ record.client ∨ tx.dispute_stage ≠ DisputeStage.None then .ok s
      else
        -- the stage is set before the client lookup in the source
        let tm := s.tx_map.insert record.tx { tx with dispute_stage := DisputeStage.Open }
        match s.client_info.lookup record.client with
        | none => .ok { s with tx_map := tm }
        | some cf =>
          let cf' := { cf with available := cf.available - tx.amount,
                               held := cf.held + tx.amount }
          .ok ⟨s.client_info.insert record.client cf', tm⟩

/-- The `b"resolve"` arm of the match; note it never writes `tx_map`. -/
def resolveStep (s : PState) (record : TransactionEntry) : Except Error PState :=
  if !(s.tx_map.containsKey record.tx) || !(s.client_info.containsKey record.client) then
    .ok s
  else match s.tx_map.lookup record.tx with
    | none => .error (.UnexpectedError "Transaction id not found")
    | some tx =>
      if tx.client ≠ record.client ∨ tx.dispute_stage ≠ DisputeStage.Open then .ok s
      else match s.client_info.lookup record.client with
        | none => .ok s
        | some cf =>
          let cf' := { cf with available := cf.available + tx.amount,
                               held := cf.held - tx.amount }
          .ok ⟨s.client_info.insert record.client cf', s.tx_map⟩

/-- The `b"chargeback"` arm of the match. -/
def chargebackStep (s : PState) (record : TransactionEntry) : Except Error PState :=
  if !(s.tx_map.containsKey record.tx) || !(s.client_info.containsKey record.client) then
    .ok s
  else match s.tx_map.lookup record.tx with
    | none => .error (.UnexpectedError "Transaction id not found")
    | some tx =>
      if tx.client ≠ record.client ∨ tx.dispute_stage ≠ DisputeStage.Open then .ok s
      else match s.client_info.lookup record.client with
        | none => .ok s
        | some cf =>
          let cf' := { cf with total := cf.total - tx.amount,
                               held := cf.held - tx.amount,
                               locked := true }
          let tm := s.tx_map.insert record.tx { tx with dispute_stage := DisputeStage.ChargeBack }
          .ok ⟨s.client_info.insert record.client cf', tm⟩

/-- The `match record.tx_type` of the loop body; the Rust match on the byte
literals `b"deposit"`, ..., with the wildcard arm a silent discard. -/
def dispatchRecord (s : PState) (record : TransactionEntry) : Except Error PState :=
  if record.tx_type = "deposit" then .ok (depositStep s record)
  else if record.tx_type = "withdrawal" then withdrawalStep s record
  else if record.tx_type = "dispute" then disputeStep s record
  else if record.tx_type = "resolve" then resolveStep s record
  else if record.tx_type = "chargeback" then chargebackStep s record
  else .ok s

/-- One iteration of the `while` loop of `process_transactions`: the
locked-client pre-check followed by the dispatch on the record type. -/
def process_record (s : PState) (record : TransactionEntry) : Except Error PState :=
  if s.client_info.containsKey record.client then
    match s.client_info.lookup record.client with
    | some client => if client.locked then .ok s else dispatchRecord s record
    | none => .error (.UnexpectedError "Client id not found")
  else dispatchRecord s record

/-- The loop of `process_transactions` over an already-deserialized record
sequence, threading the state through `process_record`. -/
def process_transactions : List TransactionEntry → PState → Except Error PState
  | [], s => .ok s
  | r :: rs, s =>
    match process_record s r with
    | .ok s' => process_transactions rs s'
    | .error e => .error e

/-- Total runner: the state produced by the loop, defaulting to the input
state on the (unreachable) error branch. -/
def runRecord (s : PState) (r : TransactionEntry) : PState :=
  match process_record s r with
  | .ok s' => s'
  | .error _ => s

/-- Total runner over a record list. -/
def runRecords (rs : List TransactionEntry) (s : PState) : PState :=
  rs.foldl runRecord s

/-- The dispute stage currently recorded for transaction id `t`, if any. -/
def stageOf (s : PState) (t : Nat) : Option DisputeStage :=
  (s.tx_map.lookup t).map Transaction.dispute_stage
/-! ### Total mirrors of the loop body

Since the `UnexpectedError` branches are unreachable, each fallible arm is
equal to `Except.ok` of a total function of the same structure (the
unreachable arms return the state unchanged). All behavioral reasoning is
done on these mirrors through the `_eq` lemmas below. -/

/-- Total mirror of `withdrawalStep`. -/
def withdrawalRun (s : PState) (record : TransactionEntry) : PState :=
  if record.amount.isNone || !(s.client_info.containsKey record.client) then s
  else match s.client_info.lookup record.client with
    | none => s
    | some cf =>
      match record.amount with
      | none => s
      | some amt =>
        if cf.available ≥ amt then
          let cf' := { cf with available := cf.available - amt, total := cf.total - amt }
          let ci := s.client_info.insert record.client cf'
          if amt ≥ 0 then
            ⟨ci, s.tx_map.insert record.tx ⟨record.client, amt, DisputeStage.None⟩⟩
          else
            ⟨ci, s.tx_map⟩
        else s

/-- Total mirror of `disputeStep`. -/
def disputeRun (s : PState) (record : TransactionEntry) : PState :=
  if !(s.tx_map.containsKey record.tx) || !(s.client_info.containsKey record.client) then s
  else match s.tx_map.lookup record.tx with
    | none => s
    | some tx =>
      if tx.client ≠ record.client ∨ tx.dispute_stage ≠ DisputeStage.None then s
      else
        let tm := s.tx_map.insert record.tx { tx with dispute_stage := DisputeStage.Open }
        match s.client_info.lookup record.client with
        | none => { s with tx_map := tm }
        | some cf =>
          let cf' := { cf with available := cf.available - tx.amount,
                               held := cf.held + tx.amount }
          ⟨s.client_info.insert record.client cf', tm⟩

/-- Total mirror of `resolveStep`. -/
def resolveRun (s : PState) (record : TransactionEntry) : PState :=
  if !(s.tx_map.containsKey record.tx) || !(s.client_info.containsKey record.client) then s
  else match s.tx_map.lookup record.tx with
    | none => s
    | some tx =>
      if tx.client ≠ record.client ∨ tx.dispute_stage ≠ DisputeStage.Open then s
      else match s.client_info.lookup record.client with
        | none => s
        | some cf =>
          let cf' := { cf with available := cf.available + tx.amount,
                               held := cf.held - tx.amount }
          ⟨s.client_info.insert record.client cf', s.tx_map⟩

/-- Total mirror of `chargebackStep`. -/
def chargebackRun (s : PState) (record : TransactionEntry) : PState :=
  if !(s.tx_map.containsKey record.tx) || !(s.client_info.containsKey record.client) then s
  else match s.tx_map.lookup record.tx with
    | none => s
    | some tx =>
      if tx.client ≠ record.client ∨ tx.dispute_stage ≠ DisputeStage.Open then s
      else match s.client_info.lookup record.client with
        | none => s
        | some cf =>
          let cf' := { cf with total := cf.total - tx.amount,
                               held := cf.held - tx.amount,
                               locked := true }
          let tm := s.tx_map.insert record.tx { tx with dispute_stage := DisputeStage.ChargeBack }
          ⟨s.client_info.insert record.client cf', tm⟩

/-- Total mirror of `dispatchRecord`. -/
def dispatchRun (s : PState) (record : TransactionEntry) : PState :=
  if record.tx_type = "deposit" then depositStep s record
  else if record.tx_type = "withdrawal" then withdrawalRun s record
  else if record.tx_type = "dispute" then disputeRun s record
  else if record.tx_type = "resolve" then resolveRun s record
  else if record.tx_type = "chargeback" then chargebackRun s record
  else s

/-- Total mirror of `process_record`. -/
def recordRun (s : PState) (record : TransactionEntry) : PState :=
  if s.client_info.containsKey record.client then
    match s.client_info.lookup record.client with
    | some client => if client.locked then s else dispatchRun s record
    | none => s
  else dispatchRun s record


/-! ### The balance invariant: `total = available + held` for every account -/

/-- Every account in `client_info` satisfies `total = available + held`. -/
def balanced (s : PState) : Prop :=
  ∀ c acc, s.client_info.lookup c = some acc → acc.total = acc.available + acc.held


/-- Every ledger entry in `tx_map` has a nonnegative amount. -/
def amountsNonneg (s : PState) : Prop :=
  ∀ t e, s.tx_map.lookup t = some e → 0 ≤ e.amount

/-- The dispute-stage moves allowed along `None → Open → ChargeBack` for one
processing step at one transaction id: stage unchanged, entry created
undisputed, opened by a dispute, or charged back from open. -/
def stageOk (a b : Option DisputeStage) : Prop :=
  a = b ∨ (a = none ∧ b = some DisputeStage.None)
    ∨ (a = some DisputeStage.None ∧ b = some DisputeStage.Open)
    ∨ (a = some DisputeStage.Open ∧ b = some DisputeStage.ChargeBack)

/-- A deposit record, as deserialized from one input row. -/
def mkDeposit (c t : Nat) (a : Rat) : TransactionEntry := ⟨"deposit", c, t, some a⟩

/-- A withdrawal record. -/
def mkWithdrawal (c t : Nat) (a : Rat) : TransactionEntry := ⟨"withdrawal", c, t, some a⟩

/-- A dispute record (the amount column is absent). -/
def mkDispute (c t : Nat) : TransactionEntry := ⟨"dispute", c, t, none⟩

/-- A resolve record. -/
def mkResolve (c t : Nat) : TransactionEntry := ⟨"resolve", c, t, none⟩

/-- A chargeback record. -/
def mkChargeback (c t : Nat) : TransactionEntry := ⟨"chargeback", c, t, none⟩

/-! ### Lemmas about the association-list map -/

theorem AMap.containsKey_iff_lookup {α β : Type} [DecidableEq α] (m : AMap α β) (a : α) :
    m.containsKey a = true ↔ ∃ v, m.lookup a = some v := by
  induction m with
  | nil => simp [containsKey, lookup]
  | cons kv rest ih =>
    obtain ⟨k, v⟩ := kv
    by_cases h : k = a <;> simp [containsKey, lookup, h, ih]

theorem AMap.lookup_insert_self {α β : Type} [DecidableEq α] (m : AMap α β) (a : α) (b : β) :
    (m.insert a b).lookup a = some b := by
  induction m with
  | nil => simp [insert, lookup]
  | cons kv rest ih =>
    obtain ⟨k, v⟩ := kv
    by_cases h : k = a <;> simp [insert, lookup, h, ih]

theorem AMap.lookup_insert {α β : Type} [DecidableEq α] (m : AMap α β) (a c : α) (b : β) :
    (m.insert a b).lookup c = if c = a then some b else m.lookup c := by
  induction m with
  | nil =>
    by_cases h : c = a
    · subst h; simp [insert, lookup]
    · simp [insert, lookup, h, Ne.symm h]
  | cons kv rest ih =>
    obtain ⟨k, v⟩ := kv
    by_cases hk : k = a
    · subst hk
      by_cases hc : c = k
      · subst hc; simp [insert, lookup]
      · simp [insert, lookup, hc, Ne.symm hc]
    · by_cases hc : k = c
      · subst hc
        have hca : ¬(k = a) := hk
        simp [insert, lookup, hk, Ne.symm hk, ih]
      · simp [insert, lookup, hk, hc, ih]

theorem AMap.lookup_insert_ne {α β : Type} [DecidableEq α] (m : AMap α β) (a c : α) (b : β) (h : c ≠ a) :
    (m.insert a b).lookup c = m.lookup c := by
  simp [lookup_insert, h]


/-! ### The `UnexpectedError` branches are unreachable -/

theorem withdrawalStep_ok (s : PState) (r : TransactionEntry) :
    ∃ t, withdrawalStep s r = Except.ok t := by
  unfold withdrawalStep
  split
  · exact ⟨_, rfl⟩
  next h =>
    simp only [Bool.or_eq_true, Bool.not_eq_true', not_or, Bool.not_eq_false] at h
    obtain ⟨h1, h2⟩ := h
    obtain ⟨v, hv⟩ := (AMap.containsKey_iff_lookup _ _).mp h2
    rw [hv]
    cases hamt : r.amount with
    | none => simp [hamt] at h1
    | some amt =>
      simp only
      split
      · split
        · exact ⟨_, rfl⟩
        · exact ⟨_, rfl⟩
      · exact ⟨_, rfl⟩

theorem disputeStep_ok (s : PState) (r : TransactionEntry) :
    ∃ t, disputeStep s r = Except.ok t := by
  unfold disputeStep
  split
  · exact ⟨_, rfl⟩
  next h =>
    simp only [Bool.or_eq_true, Bool.not_eq_true', not_or, Bool.not_eq_false] at h
    obtain ⟨v, hv⟩ := (AMap.containsKey_iff_lookup _ _).mp h.1
    rw [hv]
    simp only
    split
    · exact ⟨_, rfl⟩
    · split
      · exact ⟨_, rfl⟩
      · exact ⟨_, rfl⟩

theorem resolveStep_ok (s : PState) (r : TransactionEntry) :
    ∃ t, resolveStep s r = Except.ok t := by
  unfold resolveStep
  split
  · exact ⟨_, rfl⟩
  next h =>
    simp only [Bool.or_eq_true, Bool.not_eq_true', not_or, Bool.not_eq_false] at h
    obtain ⟨v, hv⟩ := (AMap.containsKey_iff_lookup _ _).mp h.1
    rw [hv]
    simp only
    split
    · exact ⟨_, rfl⟩
    · split
      · exact ⟨_, rfl⟩
      · exact ⟨_, rfl⟩

theorem chargebackStep_ok (s : PState) (r : TransactionEntry) :
    ∃ t, chargebackStep s r = Except.ok t := by
  unfold chargebackStep
  split
  · exact ⟨_, rfl⟩
  next h =>
    simp only [Bool.or_eq_true, Bool.not_eq_true', not_or, Bool.not_eq_false] at h
    obtain ⟨v, hv⟩ := (AMap.containsKey_iff_lookup _ _).mp h.1
    rw [hv]
    simp only
    split
    · exact ⟨_, rfl⟩
    · split
      · exact ⟨_, rfl⟩
      · exact ⟨_, rfl⟩

theorem dispatchRecord_ok (s : PState) (r : TransactionEntry) :
    ∃ t, dispatchRecord s r = Except.ok t := by
  unfold dispatchRecord
  split
  · exact ⟨_, rfl⟩
  split
  · exact withdrawalStep_ok s r
  split
  · exact disputeStep_ok s r
  split
  · exact resolveStep_ok s r
  split
  · exact chargebackStep_ok s r
  exact ⟨_, rfl⟩

theorem process_record_ok (s : PState) (r : TransactionEntry) :
    ∃ t, process_record s r = Except.ok t := by
  unfold process_record
  split
  next h =>
    obtain ⟨v, hv⟩ := (AMap.containsKey_iff_lookup _ _).mp h
    rw [hv]
    simp only
    split
    · exact ⟨_, rfl⟩
    · exact dispatchRecord_ok s r
  · exact dispatchRecord_ok s r

theorem process_record_eq_runRecord (s : PState) (r : TransactionEntry) :
    process_record s r = Except.ok (runRecord s r) := by
  obtain ⟨t, ht⟩ := process_record_ok s r
  rw [runRecord, ht]

theorem process_transactions_eq_runRecords (rs : List TransactionEntry) (s : PState) :
    process_transactions rs s = Except.ok (runRecords rs s) := by
  induction rs generalizing s with
  | nil => rfl
  | cons r rs ih =>
    rw [process_transactions, process_record_eq_runRecord, runRecords, List.foldl_cons]
    exact ih (runRecord s r)

theorem withdrawalStep_eq (s : PState) (r : TransactionEntry) :
    withdrawalStep s r = Except.ok (withdrawalRun s r) := by
  unfold withdrawalStep withdrawalRun
  cases h1 : (r.amount.isNone || !(s.client_info.containsKey r.client)) <;> simp only [h1]
  · simp only [Bool.or_eq_false_iff, Bool.not_eq_false'] at h1
    cases hl : s.client_info.lookup r.client with
    | none =>
      exfalso
      obtain ⟨v, hv⟩ := (AMap.containsKey_iff_lookup _ _).mp h1.2
      rw [hl] at hv
      exact Option.noConfusion hv
    | some cf =>
      cases hamt : r.amount with
      | none => rfl
      | some amt =>
        by_cases h2 : cf.available ≥ amt <;> simp only [h2, if_true, if_false]
        · by_cases h3 : amt ≥ 0 <;> simp [h3]
        · simp
  · rfl

theorem disputeStep_eq (s : PState) (r : TransactionEntry) :
    disputeStep s r = Except.ok (disputeRun s r) := by
  unfold disputeStep disputeRun
  cases h1 : (!(s.tx_map.containsKey r.tx) || !(s.client_info.containsKey r.client)) <;>
    simp only [h1]
  · simp only [Bool.or_eq_false_iff, Bool.not_eq_false'] at h1
    cases hl : s.tx_map.lookup r.tx with
    | none =>
      exfalso
      obtain ⟨v, hv⟩ := (AMap.containsKey_iff_lookup _ _).mp h1.1
      rw [hl] at hv
      exact Option.noConfusion hv
    | some tx =>
      by_cases h2 : tx.client ≠ r.client ∨ tx.dispute_stage ≠ DisputeStage.None <;>
        simp only [h2, if_true, if_false]
      · rfl
      · cases hc : s.client_info.lookup r.client <;> simp
  · rfl

theorem resolveStep_eq (s : PState) (r : TransactionEntry) :
    resolveStep s r = Except.ok (resolveRun s r) := by
  unfold resolveStep resolveRun
  cases h1 : (!(s.tx_map.containsKey r.tx) || !(s.client_info.containsKey r.client)) <;>
    simp only [h1]
  · simp only [Bool.or_eq_false_iff, Bool.not_eq_false'] at h1
    cases hl : s.tx_map.lookup r.tx with
    | none =>
      exfalso
      obtain ⟨v, hv⟩ := (AMap.containsKey_iff_lookup _ _).mp h1.1
      rw [hl] at hv
      exact Option.noConfusion hv
    | some tx =>
      by_cases h2 : tx.client ≠ r.client ∨ tx.dispute_stage ≠ DisputeStage.Open <;>
        simp only [h2, if_true, if_false]
      · rfl
      · cases hc : s.client_info.lookup r.client <;> simp
  · rfl

theorem chargebackStep_eq (s : PState) (r : TransactionEntry) :
    chargebackStep s r = Except.ok (chargebackRun s r) := by
  unfold chargebackStep chargebackRun
  cases h1 : (!(s.tx_map.containsKey r.tx) || !(s.client_info.containsKey r.client)) <;>
    simp only [h1]
  · simp only [Bool.or_eq_false_iff, Bool.not_eq_false'] at h1
    cases hl : s.tx_map.lookup r.tx with
    | none =>
      exfalso
      obtain ⟨v, hv⟩ := (AMap.containsKey_iff_lookup _ _).mp h1.1
      rw [hl] at hv
      exact Option.noConfusion hv
    | some tx =>
      by_cases h2 : tx.client ≠ r.client ∨ tx.dispute_stage ≠ DisputeStage.Open <;>
        simp only [h2, if_true, if_false]
      · rfl
      · cases hc : s.client_info.lookup r.client <;> simp
  · rfl

theorem dispatchRecord_eq (s : PState) (r : TransactionEntry) :
    dispatchRecord s r = Except.ok (dispatchRun s r) := by
  unfold dispatchRecord dispatchRun
  by_cases h1 : r.tx_type = "deposit" <;> simp only [h1, if_true, if_false]
  by_cases h2 : r.tx_type = "withdrawal" <;> simp only [h2, if_true, if_false]
  · exact withdrawalStep_eq s r
  by_cases h3 : r.tx_type = "dispute" <;> simp only [h3, if_true, if_false]
  · exact disputeStep_eq s r
  by_cases h4 : r.tx_type = "resolve" <;> simp only [h4, if_true, if_false]
  · exact resolveStep_eq s r
  by_cases h5 : r.tx_type = "chargeback" <;> simp only [h5, if_true, if_false]
  · exact chargebackStep_eq s r

theorem process_record_eq (s : PState) (r : TransactionEntry) :
    process_record s r = Except.ok (recordRun s r) := by
  have hd := dispatchRecord_eq s r
  unfold process_record recordRun
  cases h1 : s.client_info.containsKey r.client
  · simp [h1, hd]
  · cases hl : s.client_info.lookup r.client with
    | none =>
      exfalso
      obtain ⟨v, hv⟩ := (AMap.containsKey_iff_lookup _ _).mp h1
      rw [hl] at hv
      exact Option.noConfusion hv
    | some client =>
      cases hcl : client.locked
      · simp [h1, hl, hcl, hd]
      · simp [h1, hl, hcl]

theorem runRecord_eq (s : PState) (r : TransactionEntry) :
    runRecord s r = recordRun s r := by
  rw [runRecord, process_record_eq]

/-! ### Frame lemmas: a record only touches its own client and transaction id -/

theorem AMap.entryOrInsert_snd {α β : Type} [DecidableEq α] (m : AMap α β) (a : α) (d : β) :
    (m.entryOrInsert a d).2 = (m.lookup a).getD d := by
  unfold entryOrInsert
  split <;> simp_all

theorem AMap.lookup_entryOrInsert_ne {α β : Type} [DecidableEq α] (m : AMap α β) (a c : α)
    (d : β) (h : c ≠ a) : ((m.entryOrInsert a d).1).lookup c = m.lookup c := by
  unfold entryOrInsert
  split
  · rfl
  · exact lookup_insert_ne m a c d h

theorem AMap.lookup_entryOrInsert_self {α β : Type} [DecidableEq α] (m : AMap α β) (a : α)
    (d : β) : ((m.entryOrInsert a d).1).lookup a = some (m.entryOrInsert a d).2 := by
  unfold entryOrInsert
  split <;> simp_all [lookup_insert_self]

theorem depositStep_client_frame (s : PState) (r : TransactionEntry) (c : Nat)
    (hc : c ≠ r.client) :
    (depositStep s r).client_info.lookup c = s.client_info.lookup c := by
  unfold depositStep
  repeat' split
  all_goals
    simp [AMap.lookup_insert_ne _ _ _ _ hc, AMap.lookup_entryOrInsert_ne _ _ _ _ hc]

theorem withdrawalRun_client_frame (s : PState) (r : TransactionEntry) (c : Nat)
    (hc : c ≠ r.client) :
    (withdrawalRun s r).client_info.lookup c = s.client_info.lookup c := by
  unfold withdrawalRun
  repeat' split
  all_goals simp [AMap.lookup_insert_ne _ _ _ _ hc]

theorem disputeRun_client_frame (s : PState) (r : TransactionEntry) (c : Nat)
    (hc : c ≠ r.client) :
    (disputeRun s r).client_info.lookup c = s.client_info.lookup c := by
  unfold disputeRun
  repeat' split
  all_goals simp [AMap.lookup_insert_ne _ _ _ _ hc]

theorem resolveRun_client_frame (s : PState) (r : TransactionEntry) (c : Nat)
    (hc : c ≠ r.client) :
    (resolveRun s r).client_info.lookup c = s.client_info.lookup c := by
  unfold resolveRun
  repeat' split
  all_goals simp [AMap.lookup_insert_ne _ _ _ _ hc]

theorem chargebackRun_client_frame (s : PState) (r : TransactionEntry) (c : Nat)
    (hc : c ≠ r.client) :
    (chargebackRun s r).client_info.lookup c = s.client_info.lookup c := by
  unfold chargebackRun
  repeat' split
  all_goals simp [AMap.lookup_insert_ne _ _ _ _ hc]

theorem dispatchRun_client_frame (s : PState) (r : TransactionEntry) (c : Nat)
    (hc : c ≠ r.client) :
    (dispatchRun s r).client_info.lookup c = s.client_info.lookup c := by
  unfold dispatchRun
  split
  · exact depositStep_client_frame s r c hc
  split
  · exact withdrawalRun_client_frame s r c hc
  split
  · exact disputeRun_client_frame s r c hc
  split
  · exact resolveRun_client_frame s r c hc
  split
  · exact chargebackRun_client_frame s r c hc
  rfl

theorem recordRun_client_frame (s : PState) (r : TransactionEntry) (c : Nat)
    (hc : c ≠ r.client) :
    (recordRun s r).client_info.lookup c = s.client_info.lookup c := by
  unfold recordRun
  repeat' split
  all_goals first
    | rfl
    | exact dispatchRun_client_frame s r c hc

theorem recordRun_locked_skip (s : PState) (r : TransactionEntry) (acc : ClientInfo)
    (h : s.client_info.lookup r.client = some acc) (hl : acc.locked = true) :
    recordRun s r = s := by
  have hc : s.client_info.containsKey r.client = true :=
    (AMap.containsKey_iff_lookup _ _).mpr ⟨acc, h⟩
  unfold recordRun
  simp [hc, h, hl]

theorem recordRun_locked_frame (s : PState) (r : TransactionEntry) (c : Nat) (acc : ClientInfo)
    (h : s.client_info.lookup c = some acc) (hl : acc.locked = true) :
    (recordRun s r).client_info.lookup c = some acc := by
  by_cases hc : r.client = c
  · subst hc
    rw [recordRun_locked_skip s r acc h hl]
    exact h
  · rw [recordRun_client_frame s r c (fun hh => hc hh.symm)]
    exact h

theorem depositStep_tx_frame (s : PState) (r : TransactionEntry) (t : Nat) (ht : t ≠ r.tx) :
    (depositStep s r).tx_map.lookup t = s.tx_map.lookup t := by
  unfold depositStep
  repeat' split
  all_goals simp [AMap.lookup_insert_ne _ _ _ _ ht]

theorem withdrawalRun_tx_frame (s : PState) (r : TransactionEntry) (t : Nat) (ht : t ≠ r.tx) :
    (withdrawalRun s r).tx_map.lookup t = s.tx_map.lookup t := by
  unfold withdrawalRun
  repeat' split
  all_goals simp [AMap.lookup_insert_ne _ _ _ _ ht]

theorem disputeRun_tx_frame (s : PState) (r : TransactionEntry) (t : Nat) (ht : t ≠ r.tx) :
    (disputeRun s r).tx_map.lookup t = s.tx_map.lookup t := by
  unfold disputeRun
  repeat' split
  all_goals simp [AMap.lookup_insert_ne _ _ _ _ ht]

theorem resolveRun_tx_frame (s : PState) (r : TransactionEntry) (t : Nat) (_ht : t ≠ r.tx) :
    (resolveRun s r).tx_map.lookup t = s.tx_map.lookup t := by
  unfold resolveRun
  repeat' split
  all_goals rfl

theorem chargebackRun_tx_frame (s : PState) (r : TransactionEntry) (t : Nat) (ht : t ≠ r.tx) :
    (chargebackRun s r).tx_map.lookup t = s.tx_map.lookup t := by
  unfold chargebackRun
  repeat' split
  all_goals simp [AMap.lookup_insert_ne _ _ _ _ ht]

theorem dispatchRun_tx_frame (s : PState) (r : TransactionEntry) (t : Nat) (ht : t ≠ r.tx) :
    (dispatchRun s r).tx_map.lookup t = s.tx_map.lookup t := by
  unfold dispatchRun
  split
  · exact depositStep_tx_frame s r t ht
  split
  · exact withdrawalRun_tx_frame s r t ht
  split
  · exact disputeRun_tx_frame s r t ht
  split
  · exact resolveRun_tx_frame s r t ht
  split
  · exact chargebackRun_tx_frame s r t ht
  rfl

theorem recordRun_tx_frame (s : PState) (r : TransactionEntry) (t : Nat) (ht : t ≠ r.tx) :
    (recordRun s r).tx_map.lookup t = s.tx_map.lookup t := by
  unfold recordRun
  repeat' split
  all_goals first
    | rfl
    | exact dispatchRun_tx_frame s r t ht

theorem depositStep_balanced (s : PState) (r : TransactionEntry) (hb : balanced s) :
    balanced (depositStep s r) := by
  unfold depositStep
  repeat' split
  any_goals exact hb
  intro c acc hacc
  simp only [AMap.lookup_insert] at hacc
  by_cases hcc : c = r.client
  · simp only [hcc, if_true] at hacc
    rw [Option.some_inj] at hacc
    subst hacc
    have hsnd := AMap.entryOrInsert_snd s.client_info r.client freshClient
    cases hl : s.client_info.lookup r.client with
    | none =>
      rw [hl] at hsnd
      simp only [Option.getD_none] at hsnd
      rw [hsnd]
      simp [freshClient]
    | some a0 =>
      rw [hl] at hsnd
      simp only [Option.getD_some] at hsnd
      have hb0 := hb r.client a0 hl
      simp only [hsnd]
      rw [hb0]
      ring
  · simp only [hcc, if_false] at hacc
    rw [AMap.lookup_entryOrInsert_ne _ _ _ _ hcc] at hacc
    exact hb c acc hacc

theorem withdrawalRun_balanced (s : PState) (r : TransactionEntry) (hb : balanced s) :
    balanced (withdrawalRun s r) := by
  unfold withdrawalRun
  split
  · exact hb
  split
  · exact hb
  next cf hcf =>
    split
    · exact hb
    next amt _hamt =>
      have key : ∀ tm : AMap Nat Transaction,
          balanced ⟨s.client_info.insert r.client
            { cf with available := cf.available - amt, total := cf.total - amt }, tm⟩ := by
        intro tm c acc hacc
        simp only [AMap.lookup_insert] at hacc
        by_cases hcc : c = r.client
        · simp only [hcc, if_true] at hacc
          rw [Option.some_inj] at hacc
          subst hacc
          have hb0 := hb r.client cf hcf
          simp only
          rw [hb0]
          ring
        · simp only [hcc, if_false] at hacc
          exact hb c acc hacc
      split
      · split
        · exact key _
        · exact key _
      · exact hb

theorem disputeRun_balanced (s : PState) (r : TransactionEntry) (hb : balanced s) :
    balanced (disputeRun s r) := by
  unfold disputeRun
  repeat' split
  any_goals exact hb
  next tx _htx _hok cf hcf =>
    intro c acc hacc
    simp only [AMap.lookup_insert] at hacc
    by_cases hcc : c = r.client
    · simp only [hcc, if_true] at hacc
      rw [Option.some_inj] at hacc
      subst hacc
      have hb0 := hb r.client cf hcf
      simp only
      rw [hb0]
      ring
    · simp only [hcc, if_false] at hacc
      exact hb c acc hacc

theorem resolveRun_balanced (s : PState) (r : TransactionEntry) (hb : balanced s) :
    balanced (resolveRun s r) := by
  unfold resolveRun
  repeat' split
  any_goals exact hb
  next tx _htx _hok cf hcf =>
    intro c acc hacc
    simp only [AMap.lookup_insert] at hacc
    by_cases hcc : c = r.client
    · simp only [hcc, if_true] at hacc
      rw [Option.some_inj] at hacc
      subst hacc
      have hb0 := hb r.client cf hcf
      simp only
      rw [hb0]
      ring
    · simp only [hcc, if_false] at hacc
      exact hb c acc hacc

theorem chargebackRun_balanced (s : PState) (r : TransactionEntry) (hb : balanced s) :
    balanced (chargebackRun s r) := by
  unfold chargebackRun
  repeat' split
  any_goals exact hb
  next tx _htx _hok cf hcf =>
    intro c acc hacc
    simp only [AMap.lookup_insert] at hacc
    by_cases hcc : c = r.client
    · simp only [hcc, if_true] at hacc
      rw [Option.some_inj] at hacc
      subst hacc
      have hb0 := hb r.client cf hcf
      simp only
      rw [hb0]
      ring
    · simp only [hcc, if_false] at hacc
      exact hb c acc hacc

theorem recordRun_balanced (s : PState) (r : TransactionEntry) (hb : balanced s) :
    balanced (recordRun s r) := by
  unfold recordRun dispatchRun
  repeat' split
  all_goals first
    | exact hb
    | exact depositStep_balanced s r hb
    | exact withdrawalRun_balanced s r hb
    | exact disputeRun_balanced s r hb
    | exact resolveRun_balanced s r hb
    | exact chargebackRun_balanced s r hb

theorem runRecords_balanced (rs : List TransactionEntry) (s : PState) (hb : balanced s) :
    balanced (runRecords rs s) := by
  induction rs generalizing s with
  | nil => exact hb
  | cons r rs ih =>
    rw [runRecords, List.foldl_cons]
    exact ih (runRecord s r) (by rw [runRecord_eq]; exact recordRun_balanced s r hb)

theorem balanced_init : balanced PState.init := by
  intro c acc hacc
  simp [PState.init, AMap.empty, AMap.lookup] at hacc

/-! ### Nonnegativity of ledger-entry amounts -/

theorem depositStep_amounts (s : PState) (r : TransactionEntry)
    (hr : ∀ a, r.amount = some a → 0 ≤ a) (hA : amountsNonneg s) :
    amountsNonneg (depositStep s r) := by
  unfold depositStep
  split
  · exact hA
  split
  · exact hA
  next amt hamt =>
    intro t e he
    simp only [AMap.lookup_insert] at he
    by_cases htt : t = r.tx
    · simp only [htt, if_true] at he
      rw [Option.some_inj] at he
      subst he
      exact hr amt hamt
    · simp only [htt, if_false] at he
      exact hA t e he

theorem withdrawalRun_amounts (s : PState) (r : TransactionEntry) (hA : amountsNonneg s) :
    amountsNonneg (withdrawalRun s r) := by
  unfold withdrawalRun
  split
  · exact hA
  split
  · exact hA
  next cf _hcf =>
    split
    · exact hA
    next amt _hamt =>
      split
      · split
        next hge0 =>
          intro t e he
          simp only [AMap.lookup_insert] at he
          by_cases htt : t = r.tx
          · simp only [htt, if_true] at he
            rw [Option.some_inj] at he
            subst he
            exact hge0
          · simp only [htt, if_false] at he
            exact hA t e he
        · exact hA
      · exact hA

theorem disputeRun_amounts (s : PState) (r : TransactionEntry) (hA : amountsNonneg s) :
    amountsNonneg (disputeRun s r) := by
  unfold disputeRun
  split
  · exact hA
  split
  · exact hA
  next tx htx =>
    split
    · exact hA
    have key : ∀ ci,
        amountsNonneg ⟨ci, s.tx_map.insert r.tx { tx with dispute_stage := DisputeStage.Open }⟩ := by
      intro ci t e he
      simp only [AMap.lookup_insert] at he
      by_cases htt : t = r.tx
      · simp only [htt, if_true] at he
        rw [Option.some_inj] at he
        subst he
        exact hA r.tx tx htx
      · simp only [htt, if_false] at he
        exact hA t e he
    split
    · exact key _
    · exact key _

theorem resolveRun_amounts (s : PState) (r : TransactionEntry) (hA : amountsNonneg s) :
    amountsNonneg (resolveRun s r) := by
  unfold resolveRun
  repeat' split
  all_goals exact hA

theorem chargebackRun_amounts (s : PState) (r : TransactionEntry) (hA : amountsNonneg s) :
    amountsNonneg (chargebackRun s r) := by
  unfold chargebackRun
  split
  · exact hA
  split
  · exact hA
  next tx htx =>
    split
    · exact hA
    split
    · exact hA
    next cf _hcf =>
      intro t e he
      simp only [AMap.lookup_insert] at he
      by_cases htt : t = r.tx
      · simp only [htt, if_true] at he
        rw [Option.some_inj] at he
        subst he
        exact hA r.tx tx htx
      · simp only [htt, if_false] at he
        exact hA t e he

theorem recordRun_amounts (s : PState) (r : TransactionEntry)
    (hr : r.tx_type = "deposit" → ∀ a, r.amount = some a → 0 ≤ a) (hA : amountsNonneg s) :
    amountsNonneg (recordRun s r) := by
  unfold recordRun dispatchRun
  repeat' split
  all_goals first
    | exact hA
    | exact depositStep_amounts s r (hr (by assumption)) hA
    | exact withdrawalRun_amounts s r hA
    | exact disputeRun_amounts s r hA
    | exact resolveRun_amounts s r hA
    | exact chargebackRun_amounts s r hA

theorem runRecords_amounts (rs : List TransactionEntry) (s : PState)
    (hr : ∀ r ∈ rs, r.tx_type = "deposit" → ∀ a, r.amount = some a → 0 ≤ a)
    (hA : amountsNonneg s) : amountsNonneg (runRecords rs s) := by
  induction rs generalizing s with
  | nil => exact hA
  | cons r rs ih =>
    rw [runRecords, List.foldl_cons]
    refine ih (runRecord s r) (fun q hq => hr q (List.mem_cons_of_mem r hq)) ?_
    rw [runRecord_eq]
    exact recordRun_amounts s r (hr r (List.mem_cons_self r rs)) hA

theorem amountsNonneg_init : amountsNonneg PState.init := by
  intro t e he
  simp [PState.init, AMap.empty, AMap.lookup] at he

/-! ### Dispute-stage transitions -/

theorem AMap.lookup_eq_none_of_not_contains {α β : Type} [DecidableEq α] (m : AMap α β)
    (a : α) (h : m.containsKey a = false) : m.lookup a = none := by
  cases hl : m.lookup a with
  | none => rfl
  | some v =>
    have hc := (containsKey_iff_lookup m a).mpr ⟨v, hl⟩
    rw [h] at hc
    exact Bool.noConfusion hc

theorem depositStep_stage (s : PState) (r : TransactionEntry) :
    stageOk (stageOf s r.tx) (stageOf (depositStep s r) r.tx) := by
  unfold depositStep
  split
  · exact Or.inl rfl
  next hnc =>
    split
    · exact Or.inl rfl
    next amt hamt =>
      have hnone : s.tx_map.lookup r.tx = none :=
        AMap.lookup_eq_none_of_not_contains _ _ (by simpa using hnc)
      right
      left
      refine ⟨by simp [stageOf, hnone], ?_⟩
      simp [stageOf, AMap.lookup_insert_self]

theorem withdrawalRun_stage (s : PState) (r : TransactionEntry) :
    stageOk (stageOf s r.tx) (stageOf (withdrawalRun s r) r.tx)
      ∨ stageOf (withdrawalRun s r) r.tx = some DisputeStage.None := by
  unfold withdrawalRun
  split
  · exact Or.inl (Or.inl rfl)
  split
  · exact Or.inl (Or.inl rfl)
  next cf hcf =>
    split
    · exact Or.inl (Or.inl rfl)
    next amt hamt =>
      split
      · split
        · right
          simp [stageOf, AMap.lookup_insert_self]
        · exact Or.inl (Or.inl rfl)
      · exact Or.inl (Or.inl rfl)

theorem disputeRun_stage (s : PState) (r : TransactionEntry) :
    stageOk (stageOf s r.tx) (stageOf (disputeRun s r) r.tx) := by
  unfold disputeRun
  split
  · exact Or.inl rfl
  split
  · exact Or.inl rfl
  next tx htx =>
    split
    · exact Or.inl rfl
    next hok =>
      push_neg at hok
      have hbefore : stageOf s r.tx = some DisputeStage.None := by
        simp [stageOf, htx, hok.2]
      split
      · exact Or.inr (Or.inr (Or.inl ⟨hbefore, by simp [stageOf, AMap.lookup_insert_self]⟩))
      · exact Or.inr (Or.inr (Or.inl ⟨hbefore, by simp [stageOf, AMap.lookup_insert_self]⟩))

theorem resolveRun_stage (s : PState) (r : TransactionEntry) :
    stageOk (stageOf s r.tx) (stageOf (resolveRun s r) r.tx) := by
  unfold resolveRun
  repeat' split
  all_goals exact Or.inl rfl

theorem chargebackRun_stage (s : PState) (r : TransactionEntry) :
    stageOk (stageOf s r.tx) (stageOf (chargebackRun s r) r.tx) := by
  unfold chargebackRun
  split
  · exact Or.inl rfl
  split
  · exact Or.inl rfl
  next tx htx =>
    split
    · exact Or.inl rfl
    next hok =>
      push_neg at hok
      have hbefore : stageOf s r.tx = some DisputeStage.Open := by
        simp [stageOf, htx, hok.2]
      split
      · exact Or.inl rfl
      · exact Or.inr (Or.inr (Or.inr ⟨hbefore, by simp [stageOf, AMap.lookup_insert_self]⟩))

theorem recordRun_stage (s : PState) (r : TransactionEntry) (t : Nat) :
    stageOk (stageOf s t) (stageOf (recordRun s r) t)
      ∨ (r.tx_type = "withdrawal" ∧ t = r.tx
          ∧ stageOf (recordRun s r) t = some DisputeStage.None) := by
  by_cases ht : t = r.tx
  · subst ht
    unfold recordRun dispatchRun
    repeat' split
    all_goals try exact Or.inl (Or.inl rfl)
    all_goals try exact Or.inl (depositStep_stage s r)
    all_goals try exact Or.inl (disputeRun_stage s r)
    all_goals try exact Or.inl (resolveRun_stage s r)
    all_goals try exact Or.inl (chargebackRun_stage s r)
    all_goals
      rcases withdrawalRun_stage s r with h | h
      · exact Or.inl h
      · exact Or.inr ⟨by assumption, rfl, h⟩
  · left
    have hf : stageOf (recordRun s r) t = stageOf s t := by
      unfold stageOf
      rw [recordRun_tx_frame s r t ht]
    rw [hf]
    exact Or.inl rfl

/-! ### Characterizations of single branches of the loop body -/

theorem recordRun_deposit_dup (s : PState) (r : TransactionEntry)
    (htype : r.tx_type = "deposit") (hdup : s.tx_map.containsKey r.tx = true) :
    recordRun s r = s := by
  unfold recordRun dispatchRun depositStep
  repeat' split
  all_goals simp_all

theorem recordRun_withdrawal_chr (s : PState) (r : TransactionEntry) (cf : ClientInfo)
    (amt : Rat) (htype : r.tx_type = "withdrawal") (hamt : r.amount = some amt)
    (hcf : s.client_info.lookup r.client = some cf) (hlock : cf.locked = false) :
    recordRun s r =
      if cf.available ≥ amt then
        if amt ≥ 0 then
          ⟨s.client_info.insert r.client
              { cf with available := cf.available - amt, total := cf.total - amt },
            s.tx_map.insert r.tx ⟨r.client, amt, DisputeStage.None⟩⟩
        else
          ⟨s.client_info.insert r.client
              { cf with available := cf.available - amt, total := cf.total - amt },
            s.tx_map⟩
      else s := by
  have hc : s.client_info.containsKey r.client = true :=
    (AMap.containsKey_iff_lookup _ _).mpr ⟨cf, hcf⟩
  unfold recordRun dispatchRun withdrawalRun
  simp [htype, hamt, hc, hcf, hlock]

theorem recordRun_resolve_chr (s : PState) (r : TransactionEntry) (tx : Transaction)
    (cf : ClientInfo) (htype : r.tx_type = "resolve") (htx : s.tx_map.lookup r.tx = some tx)
    (hown : tx.client = r.client) (hstage : tx.dispute_stage = DisputeStage.Open)
    (hcf : s.client_info.lookup r.client = some cf) (hlock : cf.locked = false) :
    recordRun s r =
      ⟨s.client_info.insert r.client
          { cf with available := cf.available + tx.amount, held := cf.held - tx.amount },
        s.tx_map⟩ := by
  have hc : s.client_info.containsKey r.client = true :=
    (AMap.containsKey_iff_lookup _ _).mpr ⟨cf, hcf⟩
  have hct : s.tx_map.containsKey r.tx = true :=
    (AMap.containsKey_iff_lookup _ _).mpr ⟨tx, htx⟩
  unfold recordRun dispatchRun resolveRun
  simp [htype, htx, hown, hstage, hcf, hlock, hc, hct]

theorem recordRun_chargeback_chr (s : PState) (r : TransactionEntry) (tx : Transaction)
    (cf : ClientInfo) (htype : r.tx_type = "chargeback") (htx : s.tx_map.lookup r.tx = some tx)
    (hown : tx.client = r.client) (hstage : tx.dispute_stage = DisputeStage.Open)
    (hcf : s.client_info.lookup r.client = some cf) (hlock : cf.locked = false) :
    recordRun s r =
      ⟨s.client_info.insert r.client
          { cf with total := cf.total - tx.amount, held := cf.held - tx.amount, locked := true },
        s.tx_map.insert r.tx { tx with dispute_stage := DisputeStage.ChargeBack }⟩ := by
  have hc : s.client_info.containsKey r.client = true :=
    (AMap.containsKey_iff_lookup _ _).mpr ⟨cf, hcf⟩
  have hct : s.tx_map.containsKey r.tx = true :=
    (AMap.containsKey_iff_lookup _ _).mpr ⟨tx, htx⟩
  unfold recordRun dispatchRun chargebackRun
  simp [htype, htx, hown, hstage, hcf, hlock, hc, hct]

/-! ### The claims -/

/-- C1: for every sequence of input records, after processing each record,
every client account in the `client_info` map satisfies
`total == available + held`. -/
theorem C1_total_eq_available_add_held (rs : List TransactionEntry) (s' : PState)
    (h : process_transactions rs PState.init = Except.ok s') (c : Nat) (acc : ClientInfo)
    (hacc : s'.client_info.lookup c = some acc) : acc.total = acc.available + acc.held := by
  have he := process_transactions_eq_runRecords rs PState.init
  rw [h] at he
  have hs : s' = runRecords rs PState.init := by
    injection he
  subst hs
  exact runRecords_balanced rs PState.init balanced_init c acc hacc

/-- Witness for C1 at the single-deposit run. -/
theorem C1_witness :
    process_transactions [mkDeposit 1 1 10] PState.init
        = Except.ok (runRecords [mkDeposit 1 1 10] PState.init)
      ∧ (runRecords [mkDeposit 1 1 10] PState.init).client_info.lookup 1
        = some ⟨10, 0, 10, false⟩
      ∧ (10 : Rat) = 10 + 0 := by
  have h1 := process_transactions_eq_runRecords [mkDeposit 1 1 10] PState.init
  have h2 : (runRecords [mkDeposit 1 1 10] PState.init).client_info.lookup 1
      = some ⟨10, 0, 10, false⟩ := by
    norm_num [runRecords, runRecord, process_record, dispatchRecord, depositStep,
      withdrawalStep, disputeStep, resolveStep, chargebackStep, AMap.containsKey, AMap.lookup,
      AMap.insert, AMap.entryOrInsert, AMap.empty, PState.init, freshClient, mkDeposit]
  exact ⟨h1, h2,
    C1_total_eq_available_add_held [mkDeposit 1 1 10] _ h1 1 ⟨10, 0, 10, false⟩ h2⟩

/-- C2: once a client's account is locked, every record carrying that client
id is discarded with no change to any state (first conjunct), and no record
of any kind ever changes that account again (second conjunct), so the account
stays locked forever. -/
theorem C2_locked_account_frozen (s : PState) (c : Nat) (acc : ClientInfo)
    (h : s.client_info.lookup c = some acc) (hl : acc.locked = true) :
    (∀ r, r.client = c → process_record s r = Except.ok s)
      ∧ ∀ r, (runRecord s r).client_info.lookup c = some acc := by
  constructor
  · intro r hrc
    rw [process_record_eq,
      recordRun_locked_skip s r acc (by rw [hrc]; exact h) hl]
  · intro r
    rw [runRecord_eq]
    exact recordRun_locked_frame s r c acc h hl

/-- Witness for C2 at the state reached by deposit; dispute; chargeback. -/
theorem C2_witness :
    (runRecords [mkDeposit 1 1 10, mkDispute 1 1, mkChargeback 1 1] PState.init).client_info.lookup 1
        = some ⟨0, 0, 0, true⟩
      ∧ process_record
          (runRecords [mkDeposit 1 1 10, mkDispute 1 1, mkChargeback 1 1] PState.init)
          (mkDeposit 1 5 7)
        = Except.ok (runRecords [mkDeposit 1 1 10, mkDispute 1 1, mkChargeback 1 1] PState.init) := by
  have h1 : (runRecords [mkDeposit 1 1 10, mkDispute 1 1, mkChargeback 1 1] PState.init).client_info.lookup 1
      = some ⟨0, 0, 0, true⟩ := by
    norm_num [runRecords, runRecord, process_record, dispatchRecord, depositStep,
      withdrawalStep, disputeStep, resolveStep, chargebackStep, AMap.containsKey, AMap.lookup,
      AMap.insert, AMap.entryOrInsert, AMap.empty, PState.init, freshClient, mkDeposit,
      mkDispute, mkChargeback]
  exact ⟨h1, (C2_locked_account_frozen _ 1 _ h1 rfl).1 (mkDeposit 1 5 7) rfl⟩

/-- C3 counterexample: after deposit(1,1,10); dispute(1,1) the ledger entry
for transaction 1 is at stage `Open`; a subsequent withdrawal reusing
transaction id 1 (amount 0) overwrites the entry, resetting its stage to
`None` — a transition the claimed path `None → Open → ChargeBack` forbids. -/
theorem C3_counterexample :
    stageOf (runRecords [mkDeposit 1 1 10, mkDispute 1 1] PState.init) 1
        = some DisputeStage.Open
      ∧ stageOf (runRecords [mkDeposit 1 1 10, mkDispute 1 1, mkWithdrawal 1 1 0] PState.init) 1
        = some DisputeStage.None := by
  constructor <;>
    norm_num [runRecords, runRecord, process_record, dispatchRecord, depositStep,
      withdrawalStep, disputeStep, resolveStep, chargebackStep, AMap.containsKey, AMap.lookup,
      AMap.insert, AMap.entryOrInsert, AMap.empty, PState.init, freshClient, stageOf,
      mkDeposit, mkDispute, mkWithdrawal]

/-- C3 amended: at every processing step, each transaction id's dispute stage
either moves along the path `None → Open → ChargedBack` (`stageOk`: unchanged,
entry created undisputed, opened from `None` by a dispute, or charged back
from `Open`; resolve leaves `Open` at `Open`) — except that a withdrawal
record reusing an existing transaction id overwrites that entry with a fresh
stage-`None` entry. -/
theorem C3_stage_path (s : PState) (r : TransactionEntry) (t : Nat) :
    stageOk (stageOf s t) (stageOf (runRecord s r) t)
      ∨ (r.tx_type = "withdrawal" ∧ t = r.tx
          ∧ stageOf (runRecord s r) t = some DisputeStage.None) := by
  rw [runRecord_eq]
  exact recordRun_stage s r t

/-- C9: for every already-deserialized record sequence, `process_transactions`
always returns `Ok` — its `UnexpectedError` branches, each guarded by a
`contains_key` check on the same key of the same map, are unreachable. -/
theorem C9_no_unexpected_error (rs : List TransactionEntry) (s : PState) :
    process_transactions rs s = Except.ok (runRecords rs s) :=
  process_transactions_eq_runRecords rs s

/-- C4 counterexample: after deposit(1,1,10), a withdrawal reusing
transaction id 1 (amount 5) is not dropped: it debits the account and
overwrites the existing ledger entry. -/
theorem C4_counterexample :
    (runRecords [mkDeposit 1 1 10] PState.init).tx_map.lookup 1
        = some ⟨1, 10, DisputeStage.None⟩
      ∧ (runRecords [mkDeposit 1 1 10, mkWithdrawal 1 1 5] PState.init).tx_map.lookup 1
        = some ⟨1, 5, DisputeStage.None⟩
      ∧ (runRecords [mkDeposit 1 1 10, mkWithdrawal 1 1 5] PState.init).client_info.lookup 1
        = some ⟨5, 0, 5, false⟩ := by
  refine ⟨?_, ?_, ?_⟩ <;>
    norm_num [runRecords, runRecord, process_record, dispatchRecord, depositStep,
      withdrawalStep, disputeStep, resolveStep, chargebackStep, AMap.containsKey, AMap.lookup,
      AMap.insert, AMap.entryOrInsert, AMap.empty, PState.init, freshClient,
      mkDeposit, mkWithdrawal]

/-- C4 amended: a record whose transaction id already has a ledger entry is
dropped with no state change for deposits only; a withdrawal performs no
duplicate check — whenever its funds check passes, it debits the account and
writes the ledger entry at its transaction id, overwriting any existing one. -/
theorem C4_duplicate_handling (s : PState) (r : TransactionEntry) :
    (r.tx_type = "deposit" → s.tx_map.containsKey r.tx = true →
        process_record s r = Except.ok s)
      ∧ (∀ cf amt, r.tx_type = "withdrawal" → r.amount = some amt →
          s.client_info.lookup r.client = some cf → cf.locked = false →
          cf.available ≥ amt → amt ≥ 0 →
          process_record s r = Except.ok
            ⟨s.client_info.insert r.client
                { cf with available := cf.available - amt, total := cf.total - amt },
              s.tx_map.insert r.tx ⟨r.client, amt, DisputeStage.None⟩⟩) := by
  constructor
  · intro htype hdup
    rw [process_record_eq, recordRun_deposit_dup s r htype hdup]
  · intro cf amt htype hamt hcf hlock hge h0
    rw [process_record_eq, recordRun_withdrawal_chr s r cf amt htype hamt hcf hlock]
    simp [hge, h0]

/-- Witness for C4: a duplicate-id deposit after deposit(1,1,10) is a no-op. -/
theorem C4_witness :
    (runRecords [mkDeposit 1 1 10] PState.init).tx_map.containsKey 1 = true
      ∧ process_record (runRecords [mkDeposit 1 1 10] PState.init) (mkDeposit 1 1 5)
        = Except.ok (runRecords [mkDeposit 1 1 10] PState.init) := by
  have h1 : (runRecords [mkDeposit 1 1 10] PState.init).tx_map.containsKey 1 = true := by
    norm_num [runRecords, runRecord, process_record, dispatchRecord, depositStep,
      withdrawalStep, disputeStep, resolveStep, chargebackStep, AMap.containsKey, AMap.lookup,
      AMap.insert, AMap.entryOrInsert, AMap.empty, PState.init, freshClient, mkDeposit]
  exact ⟨h1, (C4_duplicate_handling _ _).1 rfl h1⟩

/-- C5 counterexample: a withdrawal with the negative amount -5 against the
account {available 10}: the available-funds check passes (10 ≥ -5) and the
account is mutated (to 15), but no ledger entry is recorded under the
record's transaction id 2, contradicting the claim for this record. -/
theorem C5_counterexample :
    (runRecords [mkDeposit 1 1 10] PState.init).client_info.lookup 1
        = some ⟨10, 0, 10, false⟩
      ∧ ((10 : Rat) ≥ -5)
      ∧ (runRecords [mkDeposit 1 1 10, mkWithdrawal 1 2 (-5)] PState.init).client_info.lookup 1
        = some ⟨15, 0, 15, false⟩
      ∧ (runRecords [mkDeposit 1 1 10, mkWithdrawal 1 2 (-5)] PState.init).tx_map.lookup 2
        = none := by
  refine ⟨?_, by norm_num, ?_, ?_⟩ <;>
    norm_num [runRecords, runRecord, process_record, dispatchRecord, depositStep,
      withdrawalStep, disputeStep, resolveStep, chargebackStep, AMap.containsKey, AMap.lookup,
      AMap.insert, AMap.entryOrInsert, AMap.empty, PState.init, freshClient,
      mkDeposit, mkWithdrawal]

/-- C5 amended: for every withdrawal record with a nonnegative amount present
and an already-existing, unlocked client account: if `available ≥ amount`,
the amount is subtracted from both `available` and `total` and a ledger entry
`{client, amount, disputeStage: None}` is written under the record's
transaction id; if `available < amount`, nothing changes and the record is
silently discarded. (For a negative amount the code instead credits the
account and records no entry — see the counterexample.) -/
theorem C5_withdrawal (s : PState) (r : TransactionEntry) (cf : ClientInfo) (amt : Rat)
    (htype : r.tx_type = "withdrawal") (hamt : r.amount = some amt) (h0 : 0 ≤ amt)
    (hcf : s.client_info.lookup r.client = some cf) (hlock : cf.locked = false) :
    (cf.available ≥ amt → process_record s r = Except.ok
        ⟨s.client_info.insert r.client
            { cf with available := cf.available - amt, total := cf.total - amt },
          s.tx_map.insert r.tx ⟨r.client, amt, DisputeStage.None⟩⟩)
      ∧ (cf.available < amt → process_record s r = Except.ok s) := by
  constructor
  · intro hge
    rw [process_record_eq, recordRun_withdrawal_chr s r cf amt htype hamt hcf hlock]
    simp [hge, h0]
  · intro hlt
    rw [process_record_eq, recordRun_withdrawal_chr s r cf amt htype hamt hcf hlock]
    simp [not_le.mpr hlt]

/-- Witness for C5: scenario B, withdrawal of 5 from {available 10}. -/
theorem C5_witness :
    (runRecords [mkDeposit 1 1 10] PState.init).client_info.lookup 1
        = some ⟨10, 0, 10, false⟩
      ∧ process_record (runRecords [mkDeposit 1 1 10] PState.init) (mkWithdrawal 1 2 5)
        = Except.ok
            ⟨(runRecords [mkDeposit 1 1 10] PState.init).client_info.insert 1 ⟨5, 0, 5, false⟩,
              (runRecords [mkDeposit 1 1 10] PState.init).tx_map.insert 2
                ⟨1, 5, DisputeStage.None⟩⟩ := by
  have h1 : (runRecords [mkDeposit 1 1 10] PState.init).client_info.lookup 1
      = some ⟨10, 0, 10, false⟩ := by
    norm_num [runRecords, runRecord, process_record, dispatchRecord, depositStep,
      withdrawalStep, disputeStep, resolveStep, chargebackStep, AMap.containsKey, AMap.lookup,
      AMap.insert, AMap.entryOrInsert, AMap.empty, PState.init, freshClient, mkDeposit]
  have h2 := (C5_withdrawal (runRecords [mkDeposit 1 1 10] PState.init) (mkWithdrawal 1 2 5)
    ⟨10, 0, 10, false⟩ 5 rfl rfl (by norm_num) h1 rfl).1 (by norm_num)
  refine ⟨h1, ?_⟩
  rw [h2]
  norm_num [mkWithdrawal]

/-- C6: a chargeback that passes the existence, ownership and `Open`-stage
checks subtracts the entry's amount from `held` and `total`, leaves
`available` unchanged, marks the entry `ChargeBack` and locks the account;
Scenario D ends with client 1 at {available 0, held 0, total 0, locked}. -/
theorem C6_chargeback (s : PState) (r : TransactionEntry) (tx : Transaction) (cf : ClientInfo)
    (htype : r.tx_type = "chargeback") (htx : s.tx_map.lookup r.tx = some tx)
    (hown : tx.client = r.client) (hstage : tx.dispute_stage = DisputeStage.Open)
    (hcf : s.client_info.lookup r.client = some cf) (hlock : cf.locked = false) :
    (process_record s r = Except.ok
        ⟨s.client_info.insert r.client
            { cf with total := cf.total - tx.amount, held := cf.held - tx.amount,
                      locked := true },
          s.tx_map.insert r.tx { tx with dispute_stage := DisputeStage.ChargeBack }⟩)
      ∧ (runRecords [mkDeposit 1 1 10, mkDispute 1 1, mkChargeback 1 1] PState.init).client_info.lookup 1
        = some ⟨0, 0, 0, true⟩ := by
  constructor
  · rw [process_record_eq, recordRun_chargeback_chr s r tx cf htype htx hown hstage hcf hlock]
  · norm_num [runRecords, runRecord, process_record, dispatchRecord, depositStep,
      withdrawalStep, disputeStep, resolveStep, chargebackStep, AMap.containsKey, AMap.lookup,
      AMap.insert, AMap.entryOrInsert, AMap.empty, PState.init, freshClient,
      mkDeposit, mkDispute, mkChargeback]

/-- Witness for C6 at the state reached by deposit(1,1,10); dispute(1,1). -/
theorem C6_witness :
    (runRecords [mkDeposit 1 1 10, mkDispute 1 1] PState.init).tx_map.lookup 1
        = some ⟨1, 10, DisputeStage.Open⟩
      ∧ (runRecords [mkDeposit 1 1 10, mkDispute 1 1] PState.init).client_info.lookup 1
        = some ⟨0, 10, 10, false⟩
      ∧ (runRecords [mkDeposit 1 1 10, mkDispute 1 1, mkChargeback 1 1] PState.init).client_info.lookup 1
        = some ⟨0, 0, 0, true⟩ := by
  have h1 : (runRecords [mkDeposit 1 1 10, mkDispute 1 1] PState.init).tx_map.lookup 1
      = some ⟨1, 10, DisputeStage.Open⟩ := by
    norm_num [runRecords, runRecord, process_record, dispatchRecord, depositStep,
      withdrawalStep, disputeStep, resolveStep, chargebackStep, AMap.containsKey, AMap.lookup,
      AMap.insert, AMap.entryOrInsert, AMap.empty, PState.init, freshClient,
      mkDeposit, mkDispute]
  have h2 : (runRecords [mkDeposit 1 1 10, mkDispute 1 1] PState.init).client_info.lookup 1
      = some ⟨0, 10, 10, false⟩ := by
    norm_num [runRecords, runRecord, process_record, dispatchRecord, depositStep,
      withdrawalStep, disputeStep, resolveStep, chargebackStep, AMap.containsKey, AMap.lookup,
      AMap.insert, AMap.entryOrInsert, AMap.empty, PState.init, freshClient,
      mkDeposit, mkDispute]
  exact ⟨h1, h2,
    (C6_chargeback (runRecords [mkDeposit 1 1 10, mkDispute 1 1] PState.init)
      (mkChargeback 1 1) ⟨1, 10, DisputeStage.Open⟩ ⟨0, 10, 10, false⟩
      rfl h1 rfl rfl h2 rfl).2⟩

/-- C7 counterexample: a deposit with the negative amount -5 creates a ledger
entry with `amount = -5 < 0` — the deposit arm never checks the sign. -/
theorem C7_counterexample :
    (runRecords [mkDeposit 1 1 (-5)] PState.init).tx_map.lookup 1
        = some ⟨1, -5, DisputeStage.None⟩
      ∧ ((-5 : Rat) < 0) := by
  constructor
  · norm_num [runRecords, runRecord, process_record, dispatchRecord, depositStep,
      withdrawalStep, disputeStep, resolveStep, chargebackStep, AMap.containsKey, AMap.lookup,
      AMap.insert, AMap.entryOrInsert, AMap.empty, PState.init, freshClient, mkDeposit]
  · norm_num

/-- C7 amended: provided every deposit record carries a nonnegative amount,
every ledger entry in the transaction map has `amount ≥ 0` — withdrawal
entries are guarded by the code's own `amount >= 0` check, and dispute,
resolve and chargeback never change an entry's amount. -/
theorem C7_amounts_nonneg (rs : List TransactionEntry)
    (hr : ∀ r ∈ rs, r.tx_type = "deposit" → ∀ a, r.amount = some a → 0 ≤ a)
    (t : Nat) (e : Transaction)
    (he : (runRecords rs PState.init).tx_map.lookup t = some e) : 0 ≤ e.amount :=
  runRecords_amounts rs PState.init hr amountsNonneg_init t e he

/-- Witness for C7 at the single-deposit run. -/
theorem C7_witness :
    (runRecords [mkDeposit 1 1 10] PState.init).tx_map.lookup 1
        = some ⟨1, 10, DisputeStage.None⟩
      ∧ (0 : Rat) ≤ (⟨1, 10, DisputeStage.None⟩ : Transaction).amount := by
  have he : (runRecords [mkDeposit 1 1 10] PState.init).tx_map.lookup 1
      = some ⟨1, 10, DisputeStage.None⟩ := by
    norm_num [runRecords, runRecord, process_record, dispatchRecord, depositStep,
      withdrawalStep, disputeStep, resolveStep, chargebackStep, AMap.containsKey, AMap.lookup,
      AMap.insert, AMap.entryOrInsert, AMap.empty, PState.init, freshClient, mkDeposit]
  refine ⟨he, C7_amounts_nonneg [mkDeposit 1 1 10] ?_ 1 _ he⟩
  intro q hq htype a ha
  rw [List.mem_singleton] at hq
  subst hq
  rw [show (mkDeposit 1 1 10).amount = some 10 from rfl] at ha
  rw [Option.some_inj] at ha
  subst ha
  norm_num

/-- C8 counterexample: the tag `"Deposit"` — differing from `"deposit"` only
in case — is discarded as an unknown type (the run leaves the state
untouched), while the lowercase tag creates the account. -/
theorem C8_counterexample :
    runRecords [⟨"Deposit", 1, 1, some 10⟩] PState.init = PState.init
      ∧ (runRecords [mkDeposit 1 1 10] PState.init).client_info.lookup 1
        = some ⟨10, 0, 10, false⟩ := by
  constructor
  · rfl
  · norm_num [runRecords, runRecord, process_record, dispatchRecord, depositStep,
      withdrawalStep, disputeStep, resolveStep, chargebackStep, AMap.containsKey, AMap.lookup,
      AMap.insert, AMap.entryOrInsert, AMap.empty, PState.init, freshClient, mkDeposit]

/-- C8 amended: recognition of the transaction-type tag is an exact,
case-sensitive byte comparison: any tag other than the five lowercase
literals — including a tag differing only in letter case — is treated as an
unknown type and the record is silently discarded. -/
theorem C8_tag_case_sensitive (s : PState) (r : TransactionEntry)
    (h1 : r.tx_type ≠ "deposit") (h2 : r.tx_type ≠ "withdrawal")
    (h3 : r.tx_type ≠ "dispute") (h4 : r.tx_type ≠ "resolve")
    (h5 : r.tx_type ≠ "chargeback") :
    process_record s r = Except.ok s := by
  rw [process_record_eq]
  have hrun : recordRun s r = s := by
    unfold recordRun dispatchRun
    repeat' split
    all_goals simp_all
  rw [hrun]

/-- Witness for C8: the case-variant tag `"Deposit"` is discarded. -/
theorem C8_witness :
    ("Deposit" : String) ≠ "deposit"
      ∧ process_record PState.init ⟨"Deposit", 1, 1, some 10⟩ = Except.ok PState.init :=
  ⟨by decide,
    C8_tag_case_sensitive PState.init ⟨"Deposit", 1, 1, some 10⟩
      (by decide) (by decide) (by decide) (by decide) (by decide)⟩

/-- C10: resolve is not idempotent. A resolve passing the existence,
ownership and `Open`-stage checks credits `available` and debits `held` by
the entry's amount while leaving `tx_map` — and hence the entry's `Open`
stage — untouched, so a second resolve (or a following chargeback) repeats
the transfer: after deposit(10); dispute; resolve; resolve, and after
deposit(10); dispute; resolve; chargeback, `held = -10`. -/
theorem C10_resolve_not_idempotent (s : PState) (r : TransactionEntry) (tx : Transaction)
    (cf : ClientInfo) (htype : r.tx_type = "resolve") (htx : s.tx_map.lookup r.tx = some tx)
    (hown : tx.client = r.client) (hstage : tx.dispute_stage = DisputeStage.Open)
    (hcf : s.client_info.lookup r.client = some cf) (hlock : cf.locked = false) :
    (process_record s r = Except.ok
        ⟨s.client_info.insert r.client
            { cf with available := cf.available + tx.amount, held := cf.held - tx.amount },
          s.tx_map⟩)
      ∧ (runRecords [mkDeposit 1 1 10, mkDispute 1 1, mkResolve 1 1, mkResolve 1 1]
            PState.init).client_info.lookup 1
        = some ⟨20, -10, 10, false⟩
      ∧ (runRecords [mkDeposit 1 1 10, mkDispute 1 1, mkResolve 1 1, mkChargeback 1 1]
            PState.init).client_info.lookup 1
        = some ⟨10, -10, 0, true⟩ := by
  refine ⟨?_, ?_, ?_⟩
  · rw [process_record_eq, recordRun_resolve_chr s r tx cf htype htx hown hstage hcf hlock]
  all_goals
    norm_num [runRecords, runRecord, process_record, dispatchRecord, depositStep,
      withdrawalStep, disputeStep, resolveStep, chargebackStep, AMap.containsKey, AMap.lookup,
      AMap.insert, AMap.entryOrInsert, AMap.empty, PState.init, freshClient,
      mkDeposit, mkDispute, mkResolve, mkChargeback]

/-- Witness for C10 at the state reached by deposit(1,1,10); dispute(1,1);
resolve(1,1): the entry is still `Open`, so the second resolve fires again. -/
theorem C10_witness :
    (runRecords [mkDeposit 1 1 10, mkDispute 1 1, mkResolve 1 1] PState.init).tx_map.lookup 1
        = some ⟨1, 10, DisputeStage.Open⟩
      ∧ (runRecords [mkDeposit 1 1 10, mkDispute 1 1, mkResolve 1 1] PState.init).client_info.lookup 1
        = some ⟨10, 0, 10, false⟩
      ∧ (runRecords [mkDeposit 1 1 10, mkDispute 1 1, mkResolve 1 1, mkResolve 1 1]
            PState.init).client_info.lookup 1
        = some ⟨20, -10, 10, false⟩ := by
  have h1 : (runRecords [mkDeposit 1 1 10, mkDispute 1 1, mkResolve 1 1] PState.init).tx_map.lookup 1
      = some ⟨1, 10, DisputeStage.Open⟩ := by
    norm_num [runRecords, runRecord, process_record, dispatchRecord, depositStep,
      withdrawalStep, disputeStep, resolveStep, chargebackStep, AMap.containsKey, AMap.lookup,
      AMap.insert, AMap.entryOrInsert, AMap.empty, PState.init, freshClient,
      mkDeposit, mkDispute, mkResolve]
  have h2 : (runRecords [mkDeposit 1 1 10, mkDispute 1 1, mkResolve 1 1] PState.init).client_info.lookup 1
      = some ⟨10, 0, 10, false⟩ := by
    norm_num [runRecords, runRecord, process_record, dispatchRecord, depositStep,
      withdrawalStep, disputeStep, resolveStep, chargebackStep, AMap.containsKey, AMap.lookup,
      AMap.insert, AMap.entryOrInsert, AMap.empty, PState.init, freshClient,
      mkDeposit, mkDispute, mkResolve]
  exact ⟨h1, h2,
    (C10_resolve_not_idempotent
      (runRecords [mkDeposit 1 1 10, mkDispute 1 1, mkResolve 1 1] PState.init)
      (mkResolve 1 1) ⟨1, 10, DisputeStage.Open⟩ ⟨10, 0, 10, false⟩
      rfl h1 rfl rfl h2 rfl).2.1⟩
